import Mathlib

/-!
Verification of the windowed paginated fetch, retry policy, engagement
scoring and ranking of the `automatedContentCreator` repository
(`scrape_reddit.py`, `scrapeInstagramPage.py`, `scrapeTelegramChannel.py`).

Shallow embedding conventions:
* Python `int` timestamps and counters become `Int`; page cursors stay
  `String` (Python falsiness of `""`/`None` is modelled explicitly).
* A page-source adapter is a pure function from a cursor (and, where the
  code retries, an attempt number) to an `Except`-value: `.error` models a
  raised exception, `.ok` a returned page.
* Observable side effects that the scripts only print (page counts, the
  "Fatal: failed to fetch page after retries" message) are carried as ghost
  outputs (request counters, a `Bool` fatal flag) so that theorems can talk
  about them; the value a Python caller receives is always the first
  component.
-/

namespace ACC

/-! ## Reddit: `scrape_reddit.py`, `fetch_subreddit_new` (lines 50-110) -/

/-- Projection of a Reddit post dict: the fields `fetch_subreddit_new` and
`compute_engagement` read.  `created_utc` is `int(post.get("created_utc", 0))`,
so every post carries an integer timestamp (0 when the field is absent). -/
structure RPost where
  postId : Nat
  created_utc : Int
  score : Int
  num_comments : Int
  total_awards_received : Int
  deriving Repr, DecidableEq

/-- One decoded Reddit listing response: `data.children` (already projected to
posts) and `data.after`, where `none` models a falsy (`None` or `""`) cursor. -/
structure RedditPage where
  children : List RPost
  after : Option String
  deriving Repr, DecidableEq

/-- Errors a single Reddit page request can raise: HTTP 401 (`Unauthorized`)
or any other non-200 status.  `fetch_subreddit_new` raises `RuntimeError`
immediately in both cases (lines 66-70); there is no retry. -/
inductive RErr where
  | unauthorized
  | httpError (status : Nat)
  deriving Repr, DecidableEq

/-- The inner `for ch in children` loop of `fetch_subreddit_new`
(lines 78-98): append posts with `created_utc >= cutoff_ts`; at the first
older post set `stop_early` and break without appending it.  Returns the new
accumulator and the `stop_early` flag. -/
def collectWindow (cutoff : Int) (acc : List RPost) : List RPost → List RPost × Bool
  | [] => (acc, false)
  | p :: ps =>
    if cutoff ≤ p.created_utc then collectWindow cutoff (acc ++ [p]) ps
    else (acc, true)

/-- The `while pages < max_pages` loop of `fetch_subreddit_new` (lines 63-108).
`fuel` is `max_pages - pages`; it decreases exactly when the Python loop
increments `pages` (i.e. after a non-empty page that neither stops early nor
exhausts the cursor).  The second component counts page requests issued (a
ghost observable; the Python function performs one `requests.get` per loop
iteration).  A raised exception (`.error`) propagates, discarding `collected`,
exactly as the uncaught `RuntimeError` does. -/
def redditLoop (adapter : Option String → Except RErr RedditPage) (cutoff : Int)
    (cursor : Option String) (collected : List RPost) (requests : Nat) :
    Nat → Except RErr (List RPost) × Nat
  | 0 => (.ok collected, requests)
  | fuel + 1 =>
    match adapter cursor with
    | .error e => (.error e, requests + 1)
    | .ok page =>
      if page.children = [] then (.ok collected, requests + 1)
      else
        match collectWindow cutoff collected page.children with
        | (newCollected, stopEarly) =>
          if stopEarly then (.ok newCollected, requests + 1)
          else
            match page.after with
            | none => (.ok newCollected, requests + 1)
            | some a => redditLoop adapter cutoff (some a) newCollected (requests + 1) fuel

/-- `fetch_subreddit_new(subreddit, token, ua, cutoff_ts, page_limit, max_pages)`:
start with no `after` param, empty accumulator, `pages = 0`. -/
def fetch_subreddit_new (adapter : Option String → Except RErr RedditPage)
    (cutoff : Int) (maxPages : Nat) : Except RErr (List RPost) × Nat :=
  redditLoop adapter cutoff none [] 0 maxPages

/-! ## Instagram: `scrapeInstagramPage.py`, `fetch_medias_since` (lines 183-257) -/

/-- Projection of an instagrapi media object: the fields `fetch_medias_since`
reads.  `taken_at` is `getattr(m, "taken_at", None)`: `none` models an absent
timestamp (Python falsy), `some t` a datetime (always truthy). -/
structure Media where
  mediaId : Nat
  taken_at : Option Int
  deriving Repr, DecidableEq

/-- Errors a single `user_medias_paginated_v1` call can raise.  The retry
wrapper `_api_page_fetch` catches bare `Exception`, so transient and
non-transient (e.g. authorization) failures flow through the same handler. -/
inductive PErr where
  | transient
  | authFailure
  deriving Repr, DecidableEq

/-- The `for attempt in range(1, retries + 1)` loop of `_api_page_fetch`
(lines 201-214) with `retries = 4`: `f attempt` is one
`user_medias_paginated_v1` call at a fixed cursor.  The fuel argument is
`retries - attempt`; at the last attempt the result (success or raised error)
is returned as-is.  The `Nat` component records which attempt produced the
outcome (a ghost observable: the code prints one warning per failed attempt). -/
def retryLoop (f : Nat → Except PErr (List Media × String)) (attempt : Nat) :
    Nat → Except PErr (List Media × String) × Nat
  | 0 => (f attempt, attempt)
  | k + 1 =>
    match f attempt with
    | .ok v => (.ok v, attempt)
    | .error _ => retryLoop f (attempt + 1) k

/-- `_api_page_fetch(uid, cursor)`: 4 attempts starting at attempt 1.
`f` already normalises `page or []` and `new_cursor or ""`. -/
def apiPageFetch (f : Nat → Except PErr (List Media × String)) :
    Except PErr (List Media × String) × Nat :=
  retryLoop f 1 3

/-- The `for m in page` loop of `fetch_medias_since` (lines 233-244): a
timestamped item older than `cutoff` sets `stop_all` without being appended;
every other item (in-window or untimestamped) is appended, and reaching
`max_fetch` sets `stop_all` after the append.  Returns the new accumulator
and the `stop_all` flag. -/
def processPage (cutoff : Int) (maxFetch : Nat) (fetched : List Media) :
    List Media → List Media × Bool
  | [] => (fetched, false)
  | m :: ms =>
    match m.taken_at with
    | some t =>
      if t < cutoff then (fetched, true)
      else
        if maxFetch ≤ (fetched ++ [m]).length then (fetched ++ [m], true)
        else processPage cutoff maxFetch (fetched ++ [m]) ms
    | none =>
      if maxFetch ≤ (fetched ++ [m]).length then (fetched ++ [m], true)
      else processPage cutoff maxFetch (fetched ++ [m]) ms

/-- The `while not stop_all and page_count < max_pages and len(fetched) < max_fetch`
loop of `fetch_medias_since` (lines 217-254).  `api cursor attempt` is one
`user_medias_paginated_v1` call; `fuel = max_pages - page_count`.  Result:
`(fetched, page_count, fatal)` where `fatal` is a ghost flag recording whether
the `"[!] Fatal: failed to fetch page after retries"` branch (lines 221-223)
ran; the Python function returns only `fetched`. -/
def instaLoop (api : String → Nat → Except PErr (List Media × String)) (cutoff : Int)
    (maxFetch : Nat) (endCursor : String) (prevEndCursor : Option String)
    (fetched : List Media) (pageCount : Nat) :
    Nat → List Media × Nat × Bool
  | 0 => (fetched, pageCount, false)
  | fuel + 1 =>
    if maxFetch ≤ fetched.length then (fetched, pageCount, false)
    else
      match apiPageFetch (api endCursor) with
      | (.error _, _) => (fetched, pageCount + 1, true)
      | (.ok (page, newCursor), _) =>
        if page = [] then (fetched, pageCount + 1, false)
        else
          match processPage cutoff maxFetch fetched page with
          | (f, stopAll) =>
            if stopAll then (f, pageCount + 1, false)
            else
              if newCursor = "" ∨ some newCursor = prevEndCursor then (f, pageCount + 1, false)
              else instaLoop api cutoff maxFetch newCursor (some endCursor) f (pageCount + 1) fuel

/-- `fetch_medias_since(cl, target, cutoff_dt, max_fetch)`: `end_cursor = ""`,
`prev_end_cursor = None`, `page_count = 0`.  The page cap is the local
`max_pages = 200` in the source; it is kept as a parameter here and fixed to
200 by `fetch_medias_since`. -/
def fetchMediasSince (api : String → Nat → Except PErr (List Media × String))
    (cutoff : Int) (maxFetch maxPages : Nat) : List Media × Nat × Bool :=
  instaLoop api cutoff maxFetch "" none [] 0 maxPages

/-- `fetch_medias_since` with the source's hard-coded `max_pages = 200`. -/
def fetch_medias_since (api : String → Nat → Except PErr (List Media × String))
    (cutoff : Int) (maxFetch : Nat) : List Media × Nat × Bool :=
  fetchMediasSince api cutoff maxFetch 200

/-! ## Telegram: `scrapeTelegramChannel.py`, `scrape_channel` message loop
(lines 254-288) -/

/-- Projection of a Telethon message: the attributes the `scrape_channel`
loop reads.  `date` is `getattr(msg, "date", None)` (UTC-normalised in the
source); `views`/`forwards` may be `None` on the raw message. -/
structure TMsg where
  msgId : Int
  date : Option Int
  views : Option Int
  forwards : Option Int
  replies : Int
  reactions_total : Int
  deriving Repr, DecidableEq

/-- The `entry` dict built for each kept message (lines 277-286), restricted
to the fields the scorer reads. -/
structure TEntry where
  entryId : Int
  date : Int
  views : Option Int
  forwards : Option Int
  replies : Int
  reactions_total : Int
  deriving Repr, DecidableEq

/-- Build the `entry` dict from a kept message whose date is `d`. -/
def entryOf (m : TMsg) (d : Int) : TEntry :=
  ⟨m.msgId, d, m.views, m.forwards, m.replies, m.reactions_total⟩

/-- The `async for msg in client.iter_messages(channel)` loop of
`scrape_channel` (lines 254-288): a dateless message is skipped
(`continue`), a message older than `since` breaks the whole loop without
being appended, every other message is appended as an `entry`. -/
def telegramCollect (since : Int) : List TMsg → List TEntry
  | [] => []
  | m :: ms =>
    match m.date with
    | none => telegramCollect since ms
    | some d => if d < since then [] else entryOf m d :: telegramCollect since ms

/-! ## Engagement scorers

Python `math.log10` over non-negative reals is modelled by `Real.logb 10`.
Weights (CLI floats) are modelled as rationals cast into `ℝ` so that
positivity hypotheses stay decidable; counters are integers as in the
source (`int(... or 0)` with `max(0, ·)` clamping). -/

/-- `math.log10`. -/
noncomputable def log10 (x : ℝ) : ℝ := Real.logb 10 x

/-- `compute_engagement(post, alpha, beta, gamma, award_scale=10.0)` from
`scrape_reddit.py` (lines 112-126), including the dead
`if score >= 0 else 0.0` guard (`score` is already clamped). -/
noncomputable def compute_engagement (p : RPost) (alpha beta gamma : ℚ)
    (award_scale : ℚ := 10) : ℝ :=
  (if 0 ≤ max 0 p.score then (alpha : ℝ) * log10 (1 + (max 0 p.score : ℝ)) else 0)
    + (beta : ℝ) * log10 (1 + (max 0 p.num_comments : ℝ))
    + (gamma : ℝ) * log10 (1 + (max 0 p.total_awards_received : ℝ) * (award_scale : ℝ))

/-- `compute_engagement_telegram(metrics, alpha, beta, delta, gamma,
award_scale=1.0)` from `scrapeTelegramChannel.py` (lines 123-134);
`metrics.get(k) or 0` turns `None` into 0, then `max(0, ·)` clamps. -/
noncomputable def compute_engagement_telegram (e : TEntry)
    (alpha beta delta gamma : ℚ) (award_scale : ℚ := 1) : ℝ :=
  (if 0 ≤ max 0 (e.views.getD 0)
    then (alpha : ℝ) * log10 (1 + (max 0 (e.views.getD 0) : ℝ)) else 0)
    + (beta : ℝ) * log10 (1 + (max 0 (e.forwards.getD 0) : ℝ))
    + (delta : ℝ) * log10 (1 + (max 0 e.replies : ℝ))
    + (gamma : ℝ) * log10 (1 + (max 0 e.reactions_total : ℝ) * (award_scale : ℝ))

/-- `compute_engagement_from_metrics(likes, comments, views, saves, alpha,
beta, gamma, delta)` from `scrapeInstagramPage.py` (lines 271-277); the
local `L(x) = log10(1 + max(0, int(x or 0)))`. -/
noncomputable def compute_engagement_from_metrics
    (likes comments views saves : Int) (alpha beta gamma delta : ℚ) : ℝ :=
  (alpha : ℝ) * log10 (1 + (max 0 likes : ℝ))
    + (beta : ℝ) * log10 (1 + (max 0 comments : ℝ))
    + (gamma : ℝ) * log10 (1 + (max 0 views : ℝ))
    + (delta : ℝ) * log10 (1 + (max 0 saves : ℝ))

/-! ## Ranker

Both mains rank with `items.sort(key=lambda x: x["_score"], reverse=True)`.
CPython's `list.sort` is documented stable, and `reverse=True` inverts the
comparison without disturbing equal elements, so the faithful embedding is a
stable descending insertion sort on the score key. -/

/-- Insert `x` into a (descending) list: skip past strictly greater keys,
land in front of the first key `≤ key x`.  Elements already in the list with
an equal key came later in the original input, so `x` lands before them —
exactly CPython's stable `reverse=True` ordering. -/
def insertDesc {α β : Type} [LinearOrder β] (key : α → β) (x : α) :
    List α → List α
  | [] => [x]
  | y :: ys => if key x < key y then y :: insertDesc key x ys else x :: y :: ys

/-- `posts.sort(key=..., reverse=True)`: stable sort by `key` descending. -/
def sortByKeyDesc {α β : Type} [LinearOrder β] (key : α → β) :
    List α → List α
  | [] => []
  | x :: xs => insertDesc key x (sortByKeyDesc key xs)

/-! ## Instagram metric extraction with insights fallback
(`scrapeInstagramPage.py`, `main`, lines 322-377, and `fetch_insights_safe`,
lines 262-269) -/

/-- The candidate view attributes probed on the media object itself
(`view_count`, `video_view_count`, `video_views`, `viewCount`); `none`
models an attribute that is absent or not numeric (the `isinstance` check
fails). -/
structure MediaAttrs where
  view_count : Option Int
  video_view_count : Option Int
  video_views : Option Int
  viewCount : Option Int
  deriving Repr, DecidableEq

/-- The dict returned by `cl.insights_media`, restricted to the keys `main`
probes; `none` models a key that is missing or not numeric. -/
structure InsDict where
  video_view_count : Option Int
  video_views : Option Int
  view_count : Option Int
  views : Option Int
  save_count : Option Int
  saves : Option Int
  save : Option Int
  deriving Repr, DecidableEq

/-- The `{}` returned on failure or a non-dict result. -/
def emptyIns : InsDict := ⟨none, none, none, none, none, none, none⟩

/-- `fetch_insights_safe(cl, media_pk)` (lines 262-269): the underlying
`insights_media` call either returns a dict (`.ok`) or raises (`.error`);
a raised exception degrades to `{}`. -/
def fetch_insights_safe (call : Except PErr InsDict) : InsDict :=
  match call with
  | .ok d => d
  | .error _ => emptyIns

/-- The primary probe `for attr in ("view_count", "video_view_count",
"video_views", "viewCount")` (lines 342-346): first numeric attribute wins. -/
def primaryViews (m : MediaAttrs) : Option Int :=
  m.view_count <|> m.video_view_count <|> m.video_views <|> m.viewCount

/-- The insights probe `for k in ("video_view_count", "video_views",
"view_count", "views")` (lines 352-355). -/
def insViews (d : InsDict) : Option Int :=
  d.video_view_count <|> d.video_views <|> d.view_count <|> d.views

/-- The insights probe `for k in ("save_count", "saves", "save")`
(lines 356-359). -/
def insSaves (d : InsDict) : Option Int :=
  d.save_count <|> d.saves <|> d.save

/-- The per-item views/saves extraction of `main` (lines 324-359) for one
media item.  `pk` is `getattr(m, "pk", None) or getattr(m, "id", None)`
(`none` models a falsy pk); `insCall` is the pending `insights_media` call.
Returns `(views, saves, insightsAttempted)` where the `Bool` is a ghost flag
recording whether `fetch_insights_safe` was invoked; the Python flow always
invokes it when `media_pk` is truthy, and insights values override the
primary `views`. -/
def extractViewsSaves (pk : Option Nat) (m : MediaAttrs)
    (insCall : Except PErr InsDict) : Int × Int × Bool :=
  let views0 : Int := (primaryViews m).getD 0
  match pk with
  | none => (views0, 0, false)
  | some _ =>
    let ins := fetch_insights_safe insCall
    ((insViews ins).getD views0, (insSaves ins).getD 0, true)

/-! ## Pre-network control flow of the two mains (C7)

`scrape_reddit.main` (lines 131-177): after `argparse` (which accepts any
float weights and any int `top`), the only check before the first network
call (`get_oauth_token`) is that the four credential env vars are non-empty.
`scrapeInstagramPage.main` (lines 287-316) likewise goes straight to
`login_with_prompt()` with no weight/top validation.  There is no
`ConfigError` anywhere in the repository. -/

/-- Outcome of a main's pre-network phase. -/
inductive PreflightOutcome where
  | missingEnvReject
  | networkCall
  deriving Repr, DecidableEq

/-- The pre-network control flow of `scrape_reddit.main`: `envOk` states
that all four `REDDIT_*` env vars are set; the weights `alpha beta gamma`,
`top` and `days` are parsed but never validated before `get_oauth_token`
is called. -/
def redditPreflight (envOk : Bool) (_alpha _beta _gamma : ℚ) (_top : Int)
    (_days : ℚ) : PreflightOutcome :=
  if envOk then .networkCall else .missingEnvReject

/-- The pre-network control flow of `scrapeInstagramPage.main`: the parsed
weights and `top` are not validated before `login_with_prompt()` issues
network traffic (a `--target` is required by `argparse`, but weights and
`top` accept any value). -/
def instaPreflight (_alpha _beta _gamma _delta : ℚ) (_top : Int)
    (_days : ℚ) : PreflightOutcome :=
  .networkCall

/-! ## Page-list adapters

C1 and C3 quantify over adapters.  A well-formed adapter is generated from
a finite list of pages: cursor `""` (Instagram) / `None` (Reddit) denotes
page 0 and the cursor for page `i ≥ 1` is the string `"x" * i`, so distinct
pages get distinct non-empty cursors and the last page returns the falsy
cursor. -/

/-- The cursor naming page `i`: `i` copies of `'x'` (so `cursorFor 0 = ""`). -/
def cursorFor (i : Nat) : String :=
  String.mk (List.replicate i 'x')

/-- Instagram adapter generated from a page list: never raises, serves page
`s.length` at cursor `s`, and returns the next cursor (or `""` after the
last page).  Out-of-range cursors yield an empty page. -/
def apiOfPages (ps : List (List Media)) : String → Nat → Except PErr (List Media × String) :=
  fun s _attempt =>
    if h : s.length < ps.length then
      .ok (ps.get ⟨s.length, h⟩,
        if s.length + 1 < ps.length then cursorFor (s.length + 1) else "")
    else .ok ([], "")

/-- Reddit adapter generated from a page list: never raises, serves page 0
at cursor `None` and page `s.length` at cursor `some s`; `after` is `none`
after the last page. -/
def adapterOfPages (ps : List (List RPost)) : Option String → Except RErr RedditPage :=
  fun c =>
    let i : Nat := match c with | none => 0 | some s => s.length
    if h : i < ps.length then
      .ok ⟨ps.get ⟨i, h⟩, if i + 1 < ps.length then some (cursorFor (i + 1)) else none⟩
    else .ok ⟨[], none⟩

/-- In-window test for a Reddit post (`created_utc >= cutoff_ts`). -/
def rInWindow (cutoff : Int) (p : RPost) : Bool := cutoff ≤ p.created_utc

/-- In-window test for an Instagram media: an untimestamped item is never
out-of-window (`if taken_at and taken_at < cutoff_dt`). -/
def iInWindow (cutoff : Int) (m : Media) : Bool :=
  match m.taken_at with
  | none => true
  | some t => cutoff ≤ t

/-- In-window test for a Telegram message (`msg_date_utc < since` breaks). -/
def tInWindow (since : Int) (m : TMsg) : Bool := since ≤ m.date.getD 0

/-! ## Basic lemmas -/

theorem cursorFor_length (i : Nat) : (cursorFor i).length = i := by
  simp [cursorFor, String.length]

theorem cursorFor_ne_of_ne {i j : Nat} (h : i ≠ j) : cursorFor i ≠ cursorFor j := by
  intro he
  exact h (by rw [← cursorFor_length i, ← cursorFor_length j, he])

theorem cursorFor_zero : cursorFor 0 = "" := rfl

theorem cursorFor_ne_empty (i : Nat) : cursorFor (i + 1) ≠ "" := by
  intro he
  have := cursorFor_length (i + 1)
  rw [he] at this
  simp [String.length] at this

theorem takeWhile_append_neg {α : Type} {p : α → Bool} {l₁ l₂ : List α}
    (h : ∃ a ∈ l₁, p a = false) :
    (l₁ ++ l₂).takeWhile p = l₁.takeWhile p := by
  induction l₁ with
  | nil => simp at h
  | cons x xs ih =>
    rcases h with ⟨a, ha, hpa⟩
    rcases List.mem_cons.mp ha with rfl | ha
    · simp [List.takeWhile_cons, hpa]
    · cases hpx : p x
      · simp [List.takeWhile_cons, hpx]
      · simp only [List.cons_append, List.takeWhile_cons, hpx]
        rw [ih ⟨a, ha, hpa⟩]

/-! ## Characterisation of the inner per-page loops -/

/-- The Reddit inner loop collects exactly the in-window prefix of the page
and reports `stop_early` iff some item of the page is out of window. -/
theorem collectWindow_spec (cutoff : Int) (acc : List RPost) (l : List RPost) :
    collectWindow cutoff acc l
      = (acc ++ l.takeWhile (rInWindow cutoff), !l.all (rInWindow cutoff)) := by
  induction l generalizing acc with
  | nil => simp [collectWindow]
  | cons p ps ih =>
    by_cases h : cutoff ≤ p.created_utc
    · simp only [collectWindow, if_pos h, ih, List.takeWhile_cons, List.all_cons,
        rInWindow, decide_eq_true h]
      simp
    · simp only [collectWindow, if_neg h, List.takeWhile_cons, List.all_cons,
        rInWindow, decide_eq_false h]
      simp

/-- The Instagram inner loop, when `max_fetch` is slack enough, collects
exactly the in-window prefix of the page (untimestamped items count as
in-window) and reports `stop_all` iff some item of the page is out of
window. -/
theorem processPage_spec (cutoff : Int) (maxFetch : Nat) (fetched : List Media)
    (page : List Media)
    (hcap : fetched.length + (page.takeWhile (iInWindow cutoff)).length < maxFetch) :
    processPage cutoff maxFetch fetched page
      = (fetched ++ page.takeWhile (iInWindow cutoff), !page.all (iInWindow cutoff)) := by
  induction page generalizing fetched with
  | nil => simp [processPage]
  | cons m ms ih =>
    match hm : m.taken_at with
    | some t =>
      by_cases h : t < cutoff
      · have hw : iInWindow cutoff m = false := by
          simp [iInWindow, hm, not_le.mpr h]
        simp [processPage, hm, if_pos h, List.takeWhile_cons, hw]
      · have hw : iInWindow cutoff m = true := by
          simp [iInWindow, hm, not_lt.mp h]
        have hlen : ¬ maxFetch ≤ (fetched ++ [m]).length := by
          simp only [List.takeWhile_cons, hw, List.length_cons, if_true] at hcap ⊢
          simp only [List.length_append, List.length_singleton]
          omega
        have hcap' : (fetched ++ [m]).length
            + (ms.takeWhile (iInWindow cutoff)).length < maxFetch := by
          simp only [List.takeWhile_cons, hw, List.length_cons, if_true] at hcap
          simp only [List.length_append, List.length_singleton]
          omega
        simp only [processPage, hm, if_neg h, if_neg hlen, ih _ hcap',
          List.takeWhile_cons, hw, List.all_cons, List.append_assoc,
          List.singleton_append, Bool.true_and, cond_true]
        simp
    | none =>
      have hw : iInWindow cutoff m = true := by simp [iInWindow, hm]
      have hlen : ¬ maxFetch ≤ (fetched ++ [m]).length := by
        simp only [List.takeWhile_cons, hw, List.length_cons, if_true] at hcap
        simp only [List.length_append, List.length_singleton]
        omega
      have hcap' : (fetched ++ [m]).length
          + (ms.takeWhile (iInWindow cutoff)).length < maxFetch := by
        simp only [List.takeWhile_cons, hw, List.length_cons, if_true] at hcap
        simp only [List.length_append, List.length_singleton]
        omega
      simp only [processPage, hm, if_neg hlen, ih _ hcap',
        List.takeWhile_cons, hw, List.all_cons, List.append_assoc,
        List.singleton_append, Bool.true_and, cond_true]
      simp

/-! ## Running the fetch loops over a page-list adapter -/

/-- The cursor `fetch_subreddit_new` uses to request page `i` of
`adapterOfPages ps`: no `after` param for page 0. -/
def redditCursorOf : Nat → Option String
  | 0 => none
  | i + 1 => some (cursorFor (i + 1))

theorem adapterOfPages_at (ps : List (List RPost)) (i : Nat) :
    adapterOfPages ps (redditCursorOf i)
      = if h : i < ps.length
        then .ok ⟨ps.get ⟨i, h⟩,
          if i + 1 < ps.length then some (cursorFor (i + 1)) else none⟩
        else .ok ⟨[], none⟩ := by
  cases i with
  | zero => simp [adapterOfPages, redditCursorOf]
  | succ j => simp [adapterOfPages, redditCursorOf, cursorFor_length]

/-- Running the Reddit fetch loop from page `i`: with non-empty pages and
enough remaining page budget, it produces exactly the accumulated items plus
the in-window prefix of the remaining stream. -/
theorem redditLoop_run (ps : List (List RPost)) (cutoff : Int)
    (hne : ∀ p ∈ ps, p ≠ []) :
    ∀ (fuel i : Nat) (collected : List RPost) (requests : Nat),
    ps.length ≤ i + fuel →
    (redditLoop (adapterOfPages ps) cutoff (redditCursorOf i) collected requests fuel).1
      = .ok (collected ++ ((ps.drop i).flatten).takeWhile (rInWindow cutoff)) := by
  intro fuel
  induction fuel with
  | zero =>
    intro i collected requests hlen
    rw [List.drop_eq_nil_of_le (by omega)]
    simp [redditLoop]
  | succ fuel ih =>
    intro i collected requests hlen
    by_cases hi : i < ps.length
    · have hdrop : ps.drop i = ps.get ⟨i, hi⟩ :: ps.drop (i + 1) := by
        rw [List.get_eq_getElem, List.drop_eq_getElem_cons hi]
      have hpne : ps.get ⟨i, hi⟩ ≠ [] := hne _ (List.get_mem ps i hi)
      simp only [redditLoop, adapterOfPages_at, dif_pos hi, if_neg hpne,
        collectWindow_spec]
      by_cases hall : (ps.get ⟨i, hi⟩).all (rInWindow cutoff)
      · have htw : (ps.get ⟨i, hi⟩).takeWhile (rInWindow cutoff) = ps.get ⟨i, hi⟩ :=
          List.takeWhile_eq_self_iff.mpr (by simpa using hall)
        rw [hall]
        by_cases hnext : i + 1 < ps.length
        · simp only [Bool.not_true, if_neg (Bool.false_ne_true), if_pos hnext]
          have : some (cursorFor (i + 1)) = redditCursorOf (i + 1) := rfl
          rw [this, ih (i + 1) _ _ (by omega), hdrop]
          simp only [List.flatten_cons]
          rw [List.takeWhile_append_of_pos (by simpa using hall), htw,
            List.append_assoc]
        · have hdrop1 : ps.drop (i + 1) = [] := List.drop_eq_nil_of_le (by omega)
          simp only [Bool.not_true, if_neg (Bool.false_ne_true), if_neg hnext]
          rw [hdrop, hdrop1]
          simp [htw]
      · have hex : ∃ a ∈ ps.get ⟨i, hi⟩, rInWindow cutoff a = false := by
          rcases List.all_eq_false.mp (Bool.eq_false_iff.mpr hall) with ⟨a, ha, hpa⟩
          exact ⟨a, ha, by simpa using hpa⟩
        rw [Bool.eq_false_iff.mpr hall]
        rw [hdrop]
        simp only [List.flatten_cons]
        rw [takeWhile_append_neg hex]
        simp
    · have hdrop : ps.drop i = [] := List.drop_eq_nil_of_le (by omega)
      simp only [redditLoop, adapterOfPages_at, dif_neg hi, hdrop]
      simp

/-- The `prev_end_cursor` value in force while `fetch_medias_since` requests
page `i` of `apiOfPages ps`. -/
def instaPrevOf : Nat → Option String
  | 0 => none
  | i + 1 => some (cursorFor i)

theorem apiOfPages_at (ps : List (List Media)) (i attempt : Nat) :
    apiOfPages ps (cursorFor i) attempt
      = if h : i < ps.length
        then .ok (ps.get ⟨i, h⟩, if i + 1 < ps.length then cursorFor (i + 1) else "")
        else .ok ([], "") := by
  simp [apiOfPages, cursorFor_length]

/-- A first-attempt success is returned as attempt 1's result. -/
theorem apiPageFetch_ok {f : Nat → Except PErr (List Media × String)}
    {v : List Media × String} (h : f 1 = .ok v) : apiPageFetch f = (.ok v, 1) := by
  simp [apiPageFetch, retryLoop, h]

/-- The new cursor produced at page `i` is never the previous request's
cursor. -/
theorem instaPrev_ne (i : Nat) : ¬ some (cursorFor (i + 1)) = instaPrevOf i := by
  cases i with
  | zero => simp [instaPrevOf]
  | succ j =>
    simp only [instaPrevOf, Option.some.injEq]
    exact cursorFor_ne_of_ne (by omega)

/-- Running the Instagram fetch loop from page `i`: with non-empty pages,
enough page budget and `max_fetch` slack, it produces exactly the
accumulated items plus the in-window prefix of the remaining stream. -/
theorem instaLoop_run (ps : List (List Media)) (cutoff : Int) (maxFetch : Nat)
    (hne : ∀ p ∈ ps, p ≠ []) :
    ∀ (fuel i : Nat) (fetched : List Media) (pageCount : Nat),
    ps.length ≤ i + fuel →
    fetched.length + (((ps.drop i).flatten).takeWhile (iInWindow cutoff)).length < maxFetch →
    (instaLoop (apiOfPages ps) cutoff maxFetch (cursorFor i) (instaPrevOf i)
        fetched pageCount fuel).1
      = fetched ++ ((ps.drop i).flatten).takeWhile (iInWindow cutoff) := by
  intro fuel
  induction fuel with
  | zero =>
    intro i fetched pageCount hlen hcap
    rw [List.drop_eq_nil_of_le (by omega)]
    simp [instaLoop]
  | succ fuel ih =>
    intro i fetched pageCount hlen hcap
    have htop : ¬ maxFetch ≤ fetched.length := by omega
    by_cases hi : i < ps.length
    · have hdrop : ps.drop i = ps.get ⟨i, hi⟩ :: ps.drop (i + 1) := by
        rw [List.get_eq_getElem, List.drop_eq_getElem_cons hi]
      have hpne : ps.get ⟨i, hi⟩ ≠ [] := hne _ (List.get_mem ps i hi)
      have happ : apiPageFetch (apiOfPages ps (cursorFor i))
          = (.ok (ps.get ⟨i, hi⟩, if i + 1 < ps.length then cursorFor (i + 1) else ""), 1) :=
        apiPageFetch_ok (by rw [apiOfPages_at, dif_pos hi])
      rw [hdrop, List.flatten_cons] at hcap ⊢
      by_cases hall : (ps.get ⟨i, hi⟩).all (iInWindow cutoff)
      · have htw : (ps.get ⟨i, hi⟩).takeWhile (iInWindow cutoff) = ps.get ⟨i, hi⟩ :=
          List.takeWhile_eq_self_iff.mpr (by simpa using hall)
        rw [List.takeWhile_append_of_pos (by simpa using hall)] at hcap ⊢
        have hcapPage : fetched.length
            + ((ps.get ⟨i, hi⟩).takeWhile (iInWindow cutoff)).length < maxFetch := by
          rw [htw]; simp only [List.length_append] at hcap; omega
        simp only [instaLoop, if_neg htop, happ, if_neg hpne,
          processPage_spec _ _ _ _ hcapPage, hall, Bool.not_true,
          if_neg (Bool.false_ne_true)]
        by_cases hnext : i + 1 < ps.length
        · have hcur : ¬ (cursorFor (i + 1) = "" ∨ some (cursorFor (i + 1)) = instaPrevOf i) := by
            push_neg
            exact ⟨cursorFor_ne_empty i, instaPrev_ne i⟩
          simp only [if_pos hnext, if_neg hcur, htw]
          have : some (cursorFor i) = instaPrevOf (i + 1) := rfl
          rw [this, ih (i + 1) _ _ (by omega) (by simp only [List.length_append] at hcap ⊢; omega)]
          rw [List.append_assoc]
        · have hdrop1 : ps.drop (i + 1) = [] := List.drop_eq_nil_of_le (by omega)
          simp only [if_neg hnext, hdrop1, htw]
          simp
      · have hex : ∃ a ∈ ps.get ⟨i, hi⟩, iInWindow cutoff a = false := by
          rcases List.all_eq_false.mp (Bool.eq_false_iff.mpr hall) with ⟨a, ha, hpa⟩
          exact ⟨a, ha, by simpa using hpa⟩
        rw [takeWhile_append_neg hex] at hcap ⊢
        simp only [instaLoop, if_neg htop, happ, if_neg hpne,
          processPage_spec _ _ _ _ hcap, Bool.eq_false_iff.mpr hall]
        simp
    · have hdrop : ps.drop i = [] := List.drop_eq_nil_of_le (by omega)
      have happ : apiPageFetch (apiOfPages ps (cursorFor i)) = (.ok ([], ""), 1) :=
        apiPageFetch_ok (by rw [apiOfPages_at, dif_neg hi])
      simp only [instaLoop, if_neg htop, happ, hdrop]
      simp

/-- The Telegram message loop over an all-timestamped stream collects
exactly the in-window prefix, as entries. -/
theorem telegramCollect_spec (since : Int) (msgs : List TMsg)
    (hts : ∀ m ∈ msgs, m.date ≠ none) :
    telegramCollect since msgs
      = (msgs.takeWhile (tInWindow since)).map (fun m => entryOf m (m.date.getD 0)) := by
  induction msgs with
  | nil => simp [telegramCollect]
  | cons m ms ih =>
    match hm : m.date with
    | none => exact absurd hm (hts m (by simp))
    | some d =>
      by_cases h : d < since
      · have hw : tInWindow since m = false := by
          simp [tInWindow, hm, not_le.mpr h]
        simp [telegramCollect, hm, if_pos h, List.takeWhile_cons, hw]
      · have hw : tInWindow since m = true := by
          simp [tInWindow, hm, not_lt.mp h]
        simp only [telegramCollect, hm, if_neg h, List.takeWhile_cons, hw,
          cond_true, List.map_cons, Option.getD_some,
          ih (fun a ha => hts a (by simp [ha]))]
        simp [hm]

/-! ## C1 — window correctness of the three fetchers -/

/-- **C1**: for every adapter presenting non-empty pages whose concatenated
stream of timestamped items is sorted newest-first, and whose page count and
in-window volume are within the fetch caps, each windowed fetch returns
exactly the prefix of items with `timestamp >= cutoff`: every returned item
is in-window, the first out-of-window item stops the whole fetch without
being included — wherever it sits inside a page — and nothing after it is
returned.  Stated for `fetch_subreddit_new`, `fetch_medias_since`
(via `fetchMediasSince`, whose page cap the source fixes at 200) and the
message loop of `scrape_channel` (`telegramCollect`). -/
theorem windowed_fetch_window_correctness :
    (∀ (ps : List (List RPost)) (cutoff : Int) (maxPages : Nat),
      List.Pairwise (fun a b => b.created_utc ≤ a.created_utc) ps.flatten →
      (∀ p ∈ ps, p ≠ []) →
      ps.length ≤ maxPages →
      (fetch_subreddit_new (adapterOfPages ps) cutoff maxPages).1
        = .ok (ps.flatten.takeWhile (rInWindow cutoff)))
    ∧ (∀ (ps : List (List Media)) (cutoff : Int) (maxFetch maxPages : Nat),
      List.Pairwise (fun a b => (b.taken_at.getD 0) ≤ (a.taken_at.getD 0)) ps.flatten →
      (∀ m ∈ ps.flatten, m.taken_at ≠ none) →
      (∀ p ∈ ps, p ≠ []) →
      ps.length ≤ maxPages →
      (ps.flatten.takeWhile (iInWindow cutoff)).length < maxFetch →
      (fetchMediasSince (apiOfPages ps) cutoff maxFetch maxPages).1
        = ps.flatten.takeWhile (iInWindow cutoff))
    ∧ (∀ (msgs : List TMsg) (since : Int),
      List.Pairwise (fun a b => (b.date.getD 0) ≤ (a.date.getD 0)) msgs →
      (∀ m ∈ msgs, m.date ≠ none) →
      telegramCollect since msgs
        = (msgs.takeWhile (tInWindow since)).map (fun m => entryOf m (m.date.getD 0))) := by
  refine ⟨?_, ?_, ?_⟩
  · intro ps cutoff maxPages _hsort hne hcap
    have h := redditLoop_run ps cutoff hne maxPages 0 [] 0 (by omega)
    simpa [fetch_subreddit_new, redditCursorOf] using h
  · intro ps cutoff maxFetch maxPages _hsort _hts hne hcap hvol
    have h := instaLoop_run ps cutoff maxFetch hne maxPages 0 [] 0 (by omega)
      (by simpa using hvol)
    simpa [fetchMediasSince, cursorFor_zero, instaPrevOf] using h
  · intro msgs since _hsort hts
    exact telegramCollect_spec since msgs hts

/-- Concrete instantiation of C1: two-or-three-page adapters with the first
out-of-window item in the middle of a page. -/
theorem windowed_fetch_window_correctness_witness :
    (fetch_subreddit_new
        (adapterOfPages [[⟨1, 100, 5, 2, 0⟩], [⟨2, 90, 3, 1, 0⟩, ⟨3, 40, 9, 9, 9⟩], [⟨4, 30, 1, 1, 1⟩]])
        50 10).1
      = .ok [⟨1, 100, 5, 2, 0⟩, ⟨2, 90, 3, 1, 0⟩]
    ∧ (fetchMediasSince (apiOfPages [[⟨1, some 100⟩], [⟨2, some 90⟩, ⟨3, some 40⟩]])
        50 100 10).1
      = [⟨1, some 100⟩, ⟨2, some 90⟩]
    ∧ telegramCollect 50 [⟨1, some 100, some 5, none, 0, 2⟩, ⟨3, some 40, some 9, some 1, 2, 3⟩]
      = [⟨1, 100, some 5, none, 0, 2⟩] := by
  refine ⟨?_, ?_, ?_⟩
  · rw [windowed_fetch_window_correctness.1
      [[⟨1, 100, 5, 2, 0⟩], [⟨2, 90, 3, 1, 0⟩, ⟨3, 40, 9, 9, 9⟩], [⟨4, 30, 1, 1, 1⟩]]
      50 10 (by decide) (by decide) (by decide)]
    rfl
  · rw [windowed_fetch_window_correctness.2.1
      [[⟨1, some 100⟩], [⟨2, some 90⟩, ⟨3, some 40⟩]]
      50 100 10 (by decide) (by decide) (by decide) (by decide) (by decide)]
    decide
  · rw [windowed_fetch_window_correctness.2.2
      [⟨1, some 100, some 5, none, 0, 2⟩, ⟨3, some 40, some 9, some 1, 2, 3⟩]
      50 (by decide) (by decide)]
    decide

/-! ## C4 — cap enforcement -/

/-- The Reddit loop issues at most `fuel` further page requests. -/
theorem redditLoop_requests_le (adapter : Option String → Except RErr RedditPage)
    (cutoff : Int) :
    ∀ (fuel : Nat) (cursor : Option String) (collected : List RPost) (requests : Nat),
    (redditLoop adapter cutoff cursor collected requests fuel).2 ≤ requests + fuel := by
  intro fuel
  induction fuel with
  | zero => intro cursor collected requests; simp [redditLoop]
  | succ fuel ih =>
    intro cursor collected requests
    simp only [redditLoop]
    match adapter cursor with
    | .error e => simp
    | .ok page =>
      by_cases hc : page.children = []
      · simp [hc]
      · simp only [if_neg hc]
        match collectWindow cutoff collected page.children with
        | (newCollected, stopEarly) =>
          by_cases hs : stopEarly
          · simp [hs]
          · simp only [if_neg hs]
            match page.after with
            | none => simp
            | some a =>
              have := ih (some a) newCollected (requests + 1)
              simpa [Nat.add_assoc, Nat.add_comm 1 fuel] using this

/-- The Instagram loop issues at most `fuel` further page requests. -/
theorem instaLoop_pages_le (api : String → Nat → Except PErr (List Media × String))
    (cutoff : Int) (maxFetch : Nat) :
    ∀ (fuel : Nat) (endCursor : String) (prev : Option String)
      (fetched : List Media) (pageCount : Nat),
    (instaLoop api cutoff maxFetch endCursor prev fetched pageCount fuel).2.1
      ≤ pageCount + fuel := by
  intro fuel
  induction fuel with
  | zero => intro endCursor prev fetched pageCount; simp [instaLoop]
  | succ fuel ih =>
    intro endCursor prev fetched pageCount
    simp only [instaLoop]
    by_cases ht : maxFetch ≤ fetched.length
    · simp [ht]
    · simp only [if_neg ht]
      match apiPageFetch (api endCursor) with
      | (.error e, n) => simp
      | (.ok (page, newCursor), n) =>
        by_cases hp : page = []
        · simp [hp]
        · simp only [if_neg hp]
          match processPage cutoff maxFetch fetched page with
          | (f, stopAll) =>
            by_cases hs : stopAll
            · simp [hs]
            · simp only [if_neg hs]
              by_cases hc : newCursor = "" ∨ some newCursor = prev
              · simp [hc]
              · simp only [if_neg hc]
                have := ih newCursor (some endCursor) f (pageCount + 1)
                simpa [Nat.add_assoc, Nat.add_comm 1 fuel] using this

/-- `processPage` never grows the accumulator past `max_fetch` when it was
below it, and when it reports no stop, the accumulator is still below. -/
theorem processPage_length (cutoff : Int) (maxFetch : Nat) :
    ∀ (page : List Media) (fetched : List Media), fetched.length < maxFetch →
    (processPage cutoff maxFetch fetched page).1.length ≤ maxFetch
      ∧ ((processPage cutoff maxFetch fetched page).2 = false →
        (processPage cutoff maxFetch fetched page).1.length < maxFetch) := by
  intro page
  induction page with
  | nil => intro fetched h; simp [processPage, le_of_lt h, h]
  | cons m ms ih =>
    intro fetched h
    have hlen : (fetched ++ [m]).length = fetched.length + 1 := by simp
    match hm : m.taken_at with
    | some t =>
      by_cases hcut : t < cutoff
      · simp [processPage, hm, if_pos hcut, le_of_lt h]
      · by_cases hcap : maxFetch ≤ (fetched ++ [m]).length
        · simp only [processPage, hm, if_neg hcut, if_pos hcap]
          refine ⟨?_, by simp⟩
          rw [hlen] at hcap
          simp only [hlen]
          omega
        · simp only [processPage, hm, if_neg hcut, if_neg hcap]
          rw [hlen] at hcap
          exact ih (fetched ++ [m]) (by omega)
    | none =>
      by_cases hcap : maxFetch ≤ (fetched ++ [m]).length
      · simp only [processPage, hm, if_pos hcap]
        refine ⟨?_, by simp⟩
        rw [hlen] at hcap
        simp only [hlen]
        omega
      · simp only [processPage, hm, if_neg hcap]
        rw [hlen] at hcap
        exact ih (fetched ++ [m]) (by omega)

/-- The Instagram loop never grows the accumulator past `max_fetch`. -/
theorem instaLoop_length_le (api : String → Nat → Except PErr (List Media × String))
    (cutoff : Int) (maxFetch : Nat) :
    ∀ (fuel : Nat) (endCursor : String) (prev : Option String)
      (fetched : List Media) (pageCount : Nat), fetched.length ≤ maxFetch →
    (instaLoop api cutoff maxFetch endCursor prev fetched pageCount fuel).1.length
      ≤ maxFetch := by
  intro fuel
  induction fuel with
  | zero => intro endCursor prev fetched pageCount h; simpa [instaLoop] using h
  | succ fuel ih =>
    intro endCursor prev fetched pageCount h
    simp only [instaLoop]
    by_cases ht : maxFetch ≤ fetched.length
    · simpa [ht] using h
    · simp only [if_neg ht]
      match apiPageFetch (api endCursor) with
      | (.error e, n) => simpa using h
      | (.ok (page, newCursor), n) =>
        by_cases hp : page = []
        · simpa [hp] using h
        · simp only [if_neg hp]
          have hpl := processPage_length cutoff maxFetch page fetched (by omega)
          match hpp : processPage cutoff maxFetch fetched page with
          | (f, stopAll) =>
            rw [hpp] at hpl
            by_cases hs : stopAll
            · simpa [hs] using hpl.1
            · simp only [if_neg hs]
              by_cases hc : newCursor = "" ∨ some newCursor = prev
              · simpa [hc] using hpl.1
              · simp only [if_neg hc]
                exact ih newCursor (some endCursor) f (pageCount + 1) hpl.1

/-- **C4**: the windowed fetches respect their caps against every adapter,
even one with unlimited data: `fetch_subreddit_new` issues at most
`max_pages` page requests, and `fetch_medias_since` (any `max_pages`,
fixed to 200 in the source) returns at most `max_fetch` items and issues at
most `max_pages` page requests. -/
theorem fetch_cap_enforcement :
    (∀ (adapter : Option String → Except RErr RedditPage) (cutoff : Int)
      (maxPages : Nat),
      (fetch_subreddit_new adapter cutoff maxPages).2 ≤ maxPages)
    ∧ (∀ (api : String → Nat → Except PErr (List Media × String)) (cutoff : Int)
      (maxFetch maxPages : Nat),
      (fetchMediasSince api cutoff maxFetch maxPages).1.length ≤ maxFetch
        ∧ (fetchMediasSince api cutoff maxFetch maxPages).2.1 ≤ maxPages) := by
  refine ⟨?_, ?_⟩
  · intro adapter cutoff maxPages
    simpa [fetch_subreddit_new] using
      redditLoop_requests_le adapter cutoff maxPages none [] 0
  · intro api cutoff maxFetch maxPages
    constructor
    · exact instaLoop_length_le api cutoff maxFetch maxPages "" none [] 0 (by simp)
    · simpa [fetchMediasSince] using
        instaLoop_pages_le api cutoff maxFetch maxPages "" none [] 0

/-! ## C3 — stall termination

The Instagram loop keeps the previous request's cursor and stops as soon as
the new cursor equals it, so a cursor fixed point costs at most two more
requests.  The Reddit loop has no such guard: it only stops on a falsy
cursor, so a repeating cursor keeps it fetching until `max_pages`. -/

/-- For a deterministic adapter, "returns the same cursor on two consecutive
requests" means some requested cursor `c` is a fixed point of the adapter's
cursor map.  Once `prev_end_cursor` has caught up (`prev = some c`), the very
next request at `c` trips the stall guard. -/
theorem instaLoop_stall_inner (apiPure : String → List Media × String)
    (cutoff : Int) (maxFetch : Nat) (c : String) (hfix : (apiPure c).2 = c) :
    ∀ (fuel : Nat) (fetched : List Media) (pageCount : Nat),
    (instaLoop (fun s _ => .ok (apiPure s)) cutoff maxFetch c (some c)
        fetched pageCount fuel).2.1 ≤ pageCount + 1 := by
  intro fuel fetched pageCount
  cases fuel with
  | zero => simp [instaLoop]
  | succ fuel =>
    simp only [instaLoop]
    by_cases ht : maxFetch ≤ fetched.length
    · simp [ht]
    · simp only [if_neg ht, apiPageFetch_ok (f := fun _ => .ok (apiPure c)) rfl]
      by_cases hp : (apiPure c).1 = []
      · simp [hp]
      · simp only [if_neg hp]
        match processPage cutoff maxFetch fetched (apiPure c).1 with
        | (f, stopAll) =>
          by_cases hs : stopAll
          · simp [hs]
          · have hc : (apiPure c).2 = "" ∨ (apiPure c).2 = c := Or.inr hfix
            simp [if_neg hs, hc]

/-- From any state whose pending cursor is an adapter fixed point, the
Instagram loop performs at most two more page requests. -/
theorem instaLoop_stall (apiPure : String → List Media × String)
    (cutoff : Int) (maxFetch : Nat) (c : String) (hfix : (apiPure c).2 = c) :
    ∀ (fuel : Nat) (prev : Option String) (fetched : List Media) (pageCount : Nat),
    (instaLoop (fun s _ => .ok (apiPure s)) cutoff maxFetch c prev
        fetched pageCount fuel).2.1 ≤ pageCount + 2 := by
  intro fuel prev fetched pageCount
  cases fuel with
  | zero => simp [instaLoop]
  | succ fuel =>
    simp only [instaLoop]
    by_cases ht : maxFetch ≤ fetched.length
    · simp [ht]
    · simp only [if_neg ht, apiPageFetch_ok (f := fun _ => .ok (apiPure c)) rfl]
      by_cases hp : (apiPure c).1 = []
      · simp [hp]
      · simp only [if_neg hp]
        match processPage cutoff maxFetch fetched (apiPure c).1 with
        | (f, stopAll) =>
          by_cases hs : stopAll
          · simp [hs]
          · simp only [if_neg hs]
            by_cases hc : (apiPure c).2 = "" ∨ some ((apiPure c).2) = prev
            · simp [hc]
            · rw [hfix] at hc
              rw [hfix, if_neg hc]
              have := instaLoop_stall_inner apiPure cutoff maxFetch c hfix fuel f (pageCount + 1)
              omega

/-- The always-stalling Reddit adapter of the C3 counterexample: every
request returns the same non-empty page and the same cursor `"x"`. -/
def redditStallAdapter : Option String → Except RErr RedditPage :=
  fun _ => .ok ⟨[⟨1, 100, 5, 2, 0⟩], some "x"⟩

/-- **C3 counterexample**: against `redditStallAdapter` — whose requests 1
and 2 already return the identical non-empty cursor `"x"` — the claim would
allow at most 3 page requests (one extra iteration after the repeat), but
`fetch_subreddit_new` with `max_pages = 5` issues 5; it has no stall guard
and stops only at the page cap. -/
theorem reddit_stall_counterexample :
    (fetch_subreddit_new redditStallAdapter 0 5).2 = 5
      ∧ ¬ (fetch_subreddit_new redditStallAdapter 0 5).2 ≤ 3 := by
  constructor
  · rfl
  · intro h
    have : (5 : Nat) ≤ 3 := by
      have he : (fetch_subreddit_new redditStallAdapter 0 5).2 = 5 := rfl
      rw [he] at h
      exact h
    omega

/-- **C3 (amended)**: `fetch_medias_since` terminates within one extra
iteration after a repeated cursor: from any loop state whose pending cursor
is a fixed point of a deterministic adapter's cursor map (equivalently: the
adapter just returned the same non-empty cursor it will return again), at
most two further page requests are issued.  `fetch_subreddit_new` has no
stall guard — it keeps issuing requests — but never loops indefinitely,
because its page cap bounds the request count by `max_pages` against every
adapter. -/
theorem stall_termination_amended :
    (∀ (apiPure : String → List Media × String) (cutoff : Int)
      (maxFetch : Nat) (c : String), (apiPure c).2 = c →
      ∀ (fuel : Nat) (prev : Option String) (fetched : List Media) (pageCount : Nat),
      (instaLoop (fun s _ => .ok (apiPure s)) cutoff maxFetch c prev
          fetched pageCount fuel).2.1 ≤ pageCount + 2)
    ∧ (∀ (adapter : Option String → Except RErr RedditPage) (cutoff : Int)
      (maxPages : Nat),
      (fetch_subreddit_new adapter cutoff maxPages).2 ≤ maxPages) := by
  constructor
  · intro apiPure cutoff maxFetch c hfix fuel prev fetched pageCount
    exact instaLoop_stall apiPure cutoff maxFetch c hfix fuel prev fetched pageCount
  · intro adapter cutoff maxPages
    simpa [fetch_subreddit_new] using
      redditLoop_requests_le adapter cutoff maxPages none [] 0

/-- Concrete instantiation of the amended C3: a stalling Instagram adapter
fixed at cursor `"x"` is stopped after at most 2 further requests. -/
theorem stall_termination_amended_witness :
    (instaLoop (fun _ _ => .ok ([⟨1, some 100⟩], "x")) 0 50 "x" none [] 0 10).2.1 ≤ 0 + 2 := by
  exact stall_termination_amended.1 (fun _ => ([⟨1, some 100⟩], "x")) 0 50 "x" rfl 10 none [] 0

/-! ## C2 — retry exhaustion

`_api_page_fetch` does propagate the failure after the 4th attempt, and
`fetch_medias_since` does keep the items from prior successful pages — but
it swallows the exception (`except ... break`, printing a message) and
returns the bare item list, so the caller receives no failure flag and
cannot tell a truncated fetch from a complete one. -/

/-- An adapter whose first page succeeds and whose second page fails every
attempt (a permanent transient failure). -/
def pageTwoFailsApi : String → Nat → Except PErr (List Media × String) :=
  fun s _ => if s = "" then .ok ([⟨1, some 100⟩], cursorFor 1) else .error .transient

/-- An adapter serving the identical first page and then reporting clean
exhaustion (empty cursor). -/
def oneCleanPageApi : String → Nat → Except PErr (List Media × String) :=
  fun s _ => if s = "" then .ok ([⟨1, some 100⟩], "") else .ok ([], "")

/-- **C2 counterexample**: the retry-exhausted run (fatal branch taken,
ghost flag `true`) and the clean one-page run (no failure) hand the caller
the *same* value `[⟨1, some 100⟩]` — `fetch_medias_since` returns only the
item list, so there is no failure flag and the caller cannot distinguish
the partial fetch from a successful complete one. -/
theorem retry_exhaustion_no_flag_counterexample :
    (fetch_medias_since pageTwoFailsApi 0 50).1
        = (fetch_medias_since oneCleanPageApi 0 50).1
      ∧ (fetch_medias_since pageTwoFailsApi 0 50).2.2 = true
      ∧ (fetch_medias_since oneCleanPageApi 0 50).2.2 = false := by
  exact ⟨rfl, rfl, rfl⟩

/-- **C2 (amended)**: if a page request fails on every attempt up to the
bound, `_api_page_fetch` propagates the error after exactly 4 attempts, and
`fetch_medias_since` then stops, takes the fatal branch (logging, modelled
by the ghost flag) and returns exactly the items collected from prior
successful pages — but as a bare list, with no programmatic failure flag
accompanying the value the caller receives. -/
theorem retry_exhaustion_partial_results :
    (∀ (f : Nat → Except PErr (List Media × String)),
      (∀ a, 1 ≤ a → a ≤ 4 → ∃ e, f a = .error e) →
      ∃ e, apiPageFetch f = (.error e, 4))
    ∧ (∀ (api : String → Nat → Except PErr (List Media × String)) (cutoff : Int)
      (maxFetch : Nat) (endCursor : String) (prev : Option String)
      (fetched : List Media) (pageCount fuel : Nat) (e : PErr) (n : Nat),
      fetched.length < maxFetch →
      apiPageFetch (api endCursor) = (.error e, n) →
      instaLoop api cutoff maxFetch endCursor prev fetched pageCount (fuel + 1)
        = (fetched, pageCount + 1, true)) := by
  constructor
  · intro f hf
    obtain ⟨e1, h1⟩ := hf 1 (by omega) (by omega)
    obtain ⟨e2, h2⟩ := hf 2 (by omega) (by omega)
    obtain ⟨e3, h3⟩ := hf 3 (by omega) (by omega)
    obtain ⟨e4, h4⟩ := hf 4 (by omega) (by omega)
    refine ⟨e4, ?_⟩
    simp [apiPageFetch, retryLoop, h1, h2, h3, h4]
  · intro api cutoff maxFetch endCursor prev fetched pageCount fuel e n hlen happ
    simp [instaLoop, not_le.mpr hlen, happ]

/-- Concrete instantiation of the amended C2: the all-failing attempt
function propagates after 4 attempts, and one loop step over the failing
page returns the prior items with the fatal flag. -/
theorem retry_exhaustion_partial_results_witness :
    (∃ e, apiPageFetch (fun _ => .error .transient) = (.error e, 4))
      ∧ instaLoop pageTwoFailsApi 0 50 (cursorFor 1) (some "") [⟨1, some 100⟩] 1 9
        = ([⟨1, some 100⟩], 2, true) := by
  constructor
  · exact retry_exhaustion_partial_results.1 (fun _ => .error .transient)
      (fun a _ _ => ⟨.transient, rfl⟩)
  · exact retry_exhaustion_partial_results.2 pageTwoFailsApi 0 50 (cursorFor 1)
      (some "") [⟨1, some 100⟩] 1 8 .transient 4 (by decide) rfl

/-! ## C5 — non-transient errors and the retry policy

`fetch_subreddit_new` has no retry loop at all, so any error does propagate
on the first attempt.  But `_api_page_fetch` wraps its call in
`except Exception`, so an authorization failure is retried exactly like a
transient one: 4 attempts before propagation. -/

/-- **C5 counterexample**: a page request that raises an authorization
failure on every attempt is retried by `_api_page_fetch` — the outcome is
produced at attempt 4, not attempt 1, so the non-transient error does not
propagate immediately. -/
theorem auth_error_retried_counterexample :
    (apiPageFetch (fun _ => .error .authFailure)).2 = 4
      ∧ ¬ (apiPageFetch (fun _ => .error .authFailure)).2 = 1 := by
  exact ⟨rfl, by decide⟩

/-- **C5 (amended)**: the Reddit fetch performs a single attempt per page,
so any page-level error (authorization failure included) propagates
immediately with exactly one request issued; the Instagram retry wrapper,
by contrast, retries every exception — a first-attempt failure of any kind
(authorization included) is followed by a second attempt whose success is
returned, instead of the first error propagating. -/
theorem nontransient_error_policy :
    (∀ (adapter : Option String → Except RErr RedditPage) (cutoff : Int)
      (cursor : Option String) (collected : List RPost) (requests fuel : Nat)
      (e : RErr),
      adapter cursor = .error e →
      redditLoop adapter cutoff cursor collected requests (fuel + 1)
        = (.error e, requests + 1))
    ∧ (∀ (f : Nat → Except PErr (List Media × String)) (e : PErr)
      (v : List Media × String),
      f 1 = .error e → f 2 = .ok v →
      apiPageFetch f = (.ok v, 2)) := by
  constructor
  · intro adapter cutoff cursor collected requests fuel e he
    simp [redditLoop, he]
  · intro f e v h1 h2
    simp [apiPageFetch, retryLoop, h1, h2]

/-- Concrete instantiation of the amended C5: an adapter whose only page
raises 401 makes the Reddit fetch propagate after one request, and an
attempt function that raises an authorization failure once and then
succeeds has its second attempt's result returned by `_api_page_fetch`. -/
theorem nontransient_error_policy_witness :
    redditLoop (fun _ => .error .unauthorized) 0 none [] 0 5
        = (.error .unauthorized, 1)
      ∧ apiPageFetch (fun a => if a = 1 then .error .authFailure else .ok ([], ""))
        = (.ok ([], ""), 2) := by
  constructor
  · exact nontransient_error_policy.1 (fun _ => .error .unauthorized) 0 none [] 0 4
      .unauthorized rfl
  · exact nontransient_error_policy.2
      (fun a => if a = 1 then .error .authFailure else .ok ([], ""))
      .authFailure ([], "") rfl rfl

/-! ## C6 — the insights lookup -/

/-- **C6 counterexample**: an item whose primary probe already yields
views = 100 (`view_count` present) and which has a truthy `media_pk` still
triggers the insights lookup (ghost flag `true`), and the insights values
5/8 *override* the primary views — so the lookup is not "attempted only
when the primary fields yielded nothing". -/
theorem insights_lookup_unconditional_counterexample :
    primaryViews ⟨some 100, none, none, none⟩ = some 100
      ∧ extractViewsSaves (some 7) ⟨some 100, none, none, none⟩
          (.ok ⟨some 5, none, none, none, some 8, none, none⟩)
        = (5, 8, true) := by
  exact ⟨rfl, rfl⟩

/-- **C6 (amended)**: the insights lookup is attempted for every item with
a truthy `media_pk`, regardless of what the primary fields yielded (and its
view/save values, when present, override the primary ones); it is skipped
only when `media_pk` is falsy.  A failed lookup degrades to the empty dict:
the views counter keeps its primary value (0 when the primary probe yielded
nothing), saves degrade to 0, and the item is still scored rather than
aborted. -/
theorem insights_lookup_policy :
    (∀ (k : Nat) (m : MediaAttrs) (insCall : Except PErr InsDict),
      (extractViewsSaves (some k) m insCall).2.2 = true)
    ∧ (∀ (m : MediaAttrs) (insCall : Except PErr InsDict),
      (extractViewsSaves none m insCall).2.2 = false)
    ∧ (∀ (k : Nat) (m : MediaAttrs) (e : PErr),
      extractViewsSaves (some k) m (.error e)
        = ((primaryViews m).getD 0, 0, true))
    ∧ (∀ (k : Nat) (e : PErr),
      extractViewsSaves (some k) ⟨none, none, none, none⟩ (.error e)
        = (0, 0, true)) := by
  refine ⟨fun k m insCall => rfl, fun m insCall => rfl, fun k m e => ?_, fun k e => rfl⟩
  simp [extractViewsSaves, fetch_insights_safe, emptyIns, insViews, insSaves]

/-! ## C7 — configuration validation -/

/-- **C7 counterexample**: with all credentials present, a negative weight
(`gamma = -1`) and a non-positive `top_n` (`top = -5`) are not rejected —
both mains proceed straight to their first network call (`get_oauth_token`
resp. `login_with_prompt`); no `ConfigError` exists in the repository. -/
theorem no_config_validation_counterexample :
    redditPreflight true 1 1 (-1) (-5) 3 = .networkCall
      ∧ instaPreflight 1 1 (-1) 2 (-5) 3 = .networkCall
      ∧ PreflightOutcome.networkCall ≠ PreflightOutcome.missingEnvReject := by
  exact ⟨rfl, rfl, by decide⟩

/-- **C7 (amended)**: neither main validates weights, `top_n` or the window
before its first network call; the only pre-network rejection in
`scrape_reddit.main` is for missing credential env vars, and
`scrapeInstagramPage.main` always proceeds to login. -/
theorem preflight_no_config_check :
    (∀ (alpha beta gamma : ℚ) (top : Int) (days : ℚ),
      redditPreflight true alpha beta gamma top days = .networkCall)
    ∧ (∀ (alpha beta gamma : ℚ) (top : Int) (days : ℚ),
      redditPreflight false alpha beta gamma top days = .missingEnvReject)
    ∧ (∀ (alpha beta gamma delta : ℚ) (top : Int) (days : ℚ),
      instaPreflight alpha beta gamma delta top days = .networkCall) := by
  exact ⟨fun _ _ _ _ _ => rfl, fun _ _ _ _ _ => rfl, fun _ _ _ _ _ _ => rfl⟩

/-! ## C10 — untimestamped Instagram items -/

/-- The page loop only ever extends its accumulator. -/
theorem processPage_mem_acc (cutoff : Int) (maxFetch : Nat) :
    ∀ (page fetched : List Media) (x : Media), x ∈ fetched →
    x ∈ (processPage cutoff maxFetch fetched page).1 := by
  intro page
  induction page with
  | nil => intro fetched x hx; simpa [processPage] using hx
  | cons m ms ih =>
    intro fetched x hx
    have hx' : x ∈ fetched ++ [m] := List.mem_append_left _ hx
    have hlen : (fetched ++ [m]).length = fetched.length + 1 := by simp
    match hm : m.taken_at with
    | some t =>
      by_cases hcut : t < cutoff
      · simpa [processPage, hm, if_pos hcut] using hx
      · by_cases hcap : maxFetch ≤ (fetched ++ [m]).length
        · rw [hlen] at hcap
          simp only [processPage, hm, if_neg hcut, hlen, if_pos hcap]
          exact hx'
        · rw [hlen] at hcap
          simp only [processPage, hm, if_neg hcut, hlen, if_neg hcap]
          exact ih (fetched ++ [m]) x hx'
    | none =>
      by_cases hcap : maxFetch ≤ (fetched ++ [m]).length
      · rw [hlen] at hcap
        simp only [processPage, hm, hlen, if_pos hcap]
        exact hx'
      · rw [hlen] at hcap
        simp only [processPage, hm, hlen, if_neg hcap]
        exact ih (fetched ++ [m]) x hx'

/-- **C10**: an Instagram page item with no `taken_at` timestamp is always
appended by the page loop of `fetch_medias_since`, for *every* window
cutoff — it is never treated as out-of-window — and, as long as the append
does not reach the `max_fetch` cap, processing simply continues with the
rest of the page, so the untimestamped item never terminates the fetch via
the window check. -/
theorem untimestamped_item_kept (cutoff : Int) (maxFetch : Nat)
    (fetched : List Media) (m : Media) (ms : List Media)
    (hnone : m.taken_at = none) :
    m ∈ (processPage cutoff maxFetch fetched (m :: ms)).1
      ∧ (fetched.length + 1 < maxFetch →
        processPage cutoff maxFetch fetched (m :: ms)
          = processPage cutoff maxFetch (fetched ++ [m]) ms) := by
  have hlen : (fetched ++ [m]).length = fetched.length + 1 := by simp
  constructor
  · by_cases hcap : maxFetch ≤ (fetched ++ [m]).length
    · rw [hlen] at hcap
      simp only [processPage, hnone, hlen, if_pos hcap]
      simp
    · rw [hlen] at hcap
      simp only [processPage, hnone, hlen, if_neg hcap]
      exact processPage_mem_acc cutoff maxFetch ms (fetched ++ [m]) m (by simp)
  · intro hroom
    have hcap : ¬ maxFetch ≤ fetched.length + 1 := by omega
    simp only [processPage, hnone, hlen, if_neg hcap]

/-- Concrete instantiation of C10: an untimestamped item amid a window that
would reject any timestamp. -/
theorem untimestamped_item_kept_witness :
    (⟨4, none⟩ : Media) ∈ (processPage 1000 50 [] [⟨4, none⟩, ⟨2, some 90⟩]).1
      ∧ ((0 : Nat) + 1 < 50 →
        processPage 1000 50 [] [⟨4, none⟩, ⟨2, some 90⟩]
          = processPage 1000 50 ([] ++ [⟨4, none⟩]) [⟨2, some 90⟩]) := by
  exact untimestamped_item_kept 1000 50 [] ⟨4, none⟩ [⟨2, some 90⟩] rfl

/-! ## C9 — ranking stability -/

/-- Inserting below strictly greater keys keeps every key-class ordered:
`x` lands in front of all equal-keyed elements already present. -/
theorem insertDesc_filter_eq {α β : Type} [LinearOrder β] (key : α → β)
    (x : α) (l : List α) :
    (insertDesc key x l).filter (fun y => decide (key y = key x))
      = x :: l.filter (fun y => decide (key y = key x)) := by
  induction l with
  | nil => simp [insertDesc]
  | cons y ys ih =>
    by_cases h : key x < key y
    · have hne : ¬ key y = key x := (ne_of_gt h)
      simp only [insertDesc, if_pos h, List.filter_cons, decide_eq_true_eq,
        if_neg hne, ih]
    · simp [insertDesc, if_neg h, List.filter_cons]

/-- An insert leaves every other key-class untouched. -/
theorem insertDesc_filter_ne {α β : Type} [LinearOrder β] (key : α → β)
    (x : α) (s : β) (hne : ¬ key x = s) (l : List α) :
    (insertDesc key x l).filter (fun y => decide (key y = s))
      = l.filter (fun y => decide (key y = s)) := by
  induction l with
  | nil => simp [insertDesc, hne]
  | cons y ys ih =>
    by_cases h : key x < key y
    · simp only [insertDesc, if_pos h, List.filter_cons, ih]
    · simp [insertDesc, if_neg h, List.filter_cons, hne]

/-- The insert is a permutation step. -/
theorem insertDesc_perm {α β : Type} [LinearOrder β] (key : α → β)
    (x : α) (l : List α) : List.Perm (insertDesc key x l) (x :: l) := by
  induction l with
  | nil => simp [insertDesc]
  | cons y ys ih =>
    by_cases h : key x < key y
    · simp only [insertDesc, if_pos h]
      exact ((ih.cons y).trans (List.Perm.swap x y ys))
    · simp [insertDesc, if_neg h]

/-- Inserting into a descending list keeps it descending. -/
theorem insertDesc_pairwise {α β : Type} [LinearOrder β] (key : α → β)
    (x : α) (l : List α)
    (h : List.Pairwise (fun a b => key b ≤ key a) l) :
    List.Pairwise (fun a b => key b ≤ key a) (insertDesc key x l) := by
  induction l with
  | nil => simp [insertDesc]
  | cons y ys ih =>
    rcases List.pairwise_cons.mp h with ⟨hy, hys⟩
    by_cases hlt : key x < key y
    · simp only [insertDesc, if_pos hlt]
      refine List.pairwise_cons.mpr ⟨?_, ih hys⟩
      intro z hz
      have hz' : z ∈ x :: ys := (insertDesc_perm key x ys).mem_iff.mp hz
      rcases List.mem_cons.mp hz' with rfl | hz2
      · exact le_of_lt hlt
      · exact hy z hz2
    · simp only [insertDesc, if_neg hlt]
      refine List.pairwise_cons.mpr ⟨?_, h⟩
      intro z hz
      rcases List.mem_cons.mp hz with rfl | hz
      · exact not_lt.mp hlt
      · exact le_trans (hy z hz) (not_lt.mp hlt)

/-- **C9**: `posts.sort(key=..., reverse=True)` — modelled by the stable
descending insertion sort `sortByKeyDesc` — permutes the scored items into
an order that is sorted by score descending, and within every score class
the output preserves the original fetch order exactly (the filter of the
output at any score value `s` equals the filter of the input), so two items
with equal score appear in the ranked output in the relative order they had
in the fetch output. -/
theorem ranking_stable_desc {α β : Type} [LinearOrder β] (key : α → β)
    (l : List α) :
    List.Perm (sortByKeyDesc key l) l
      ∧ List.Pairwise (fun a b => key b ≤ key a) (sortByKeyDesc key l)
      ∧ ∀ s : β, (sortByKeyDesc key l).filter (fun y => decide (key y = s))
          = l.filter (fun y => decide (key y = s)) := by
  induction l with
  | nil => exact ⟨List.Perm.refl _, List.Pairwise.nil, fun s => rfl⟩
  | cons x xs ih =>
    refine ⟨?_, ?_, ?_⟩
    · exact (insertDesc_perm key x (sortByKeyDesc key xs)).trans (ih.1.cons x)
    · exact insertDesc_pairwise key x _ ih.2.1
    · intro s
      by_cases hs : key x = s
      · subst hs
        rw [show sortByKeyDesc key (x :: xs) = insertDesc key x (sortByKeyDesc key xs) from rfl,
          insertDesc_filter_eq, ih.2.2 (key x)]
        simp [List.filter_cons]
      · rw [show sortByKeyDesc key (x :: xs) = insertDesc key x (sortByKeyDesc key xs) from rfl,
          insertDesc_filter_ne key x s hs, ih.2.2 s]
        simp [List.filter_cons, hs]

/-! ## C8 — strict monotonicity of the engagement scorers -/

/-- A weighted `log10(1 + x)` term is strictly monotone in `x ≥ 0` when the
weight is positive. -/
theorem logTerm_lt (w : ℚ) (hw : 0 < w) {x y : ℝ} (hx : 0 ≤ x) (hxy : x < y) :
    (w : ℝ) * log10 (1 + x) < (w : ℝ) * log10 (1 + y) :=
  mul_lt_mul_of_pos_left
    (Real.logb_lt_logb (by norm_num) (by linarith) (by linarith))
    (by exact_mod_cast hw)

/-- Scaled-counter version of `logTerm_lt` (positive amplification factor). -/
theorem logTermScaled_lt (w s : ℚ) (hw : 0 < w) (hs : 0 < s)
    {x y : ℝ} (hx : 0 ≤ x) (hxy : x < y) :
    (w : ℝ) * log10 (1 + x * (s : ℝ))
      < (w : ℝ) * log10 (1 + y * (s : ℝ)) := by
  have hs' : (0 : ℝ) < (s : ℚ) := by exact_mod_cast hs
  exact logTerm_lt w hw (mul_nonneg hx (le_of_lt hs')) (by nlinarith)

/-- The dead `if score >= 0` guard of `compute_engagement` always takes the
positive branch (its scrutinee is already clamped). -/
theorem compute_engagement_eval (p : RPost) (alpha beta gamma award_scale : ℚ) :
    compute_engagement p alpha beta gamma award_scale
      = (alpha : ℝ) * log10 (1 + (max 0 p.score : ℝ))
        + (beta : ℝ) * log10 (1 + (max 0 p.num_comments : ℝ))
        + (gamma : ℝ) * log10 (1 + (max 0 p.total_awards_received : ℝ) * (award_scale : ℝ)) := by
  simp [compute_engagement, le_max_left]

/-- Likewise for the Telegram scorer. -/
theorem compute_engagement_telegram_eval (e : TEntry)
    (alpha beta delta gamma award_scale : ℚ) :
    compute_engagement_telegram e alpha beta delta gamma award_scale
      = (alpha : ℝ) * log10 (1 + (max 0 (e.views.getD 0) : ℝ))
        + (beta : ℝ) * log10 (1 + (max 0 (e.forwards.getD 0) : ℝ))
        + (delta : ℝ) * log10 (1 + (max 0 e.replies : ℝ))
        + (gamma : ℝ) * log10 (1 + (max 0 e.reactions_total : ℝ) * (award_scale : ℝ)) := by
  simp [compute_engagement_telegram, le_max_left]

/-- **C8**: for each scorer and each counter whose weight is strictly
positive (with the platform's amplification factor positive where one is
applied: Reddit fixes `award_scale = 10`, Telegram defaults it to 1),
raising that counter by at least one while holding every other counter and
all weights fixed strictly increases the engagement score.  Counters are
non-negative, as the data model guarantees. -/
theorem engagement_score_strict_mono :
    (∀ (id : Nat) (ts c a s s' : Int) (alpha beta gamma scale : ℚ),
      0 < alpha → 0 ≤ s → s + 1 ≤ s' →
      compute_engagement ⟨id, ts, s, c, a⟩ alpha beta gamma scale
        < compute_engagement ⟨id, ts, s', c, a⟩ alpha beta gamma scale)
    ∧ (∀ (id : Nat) (ts s a c c' : Int) (alpha beta gamma scale : ℚ),
      0 < beta → 0 ≤ c → c + 1 ≤ c' →
      compute_engagement ⟨id, ts, s, c, a⟩ alpha beta gamma scale
        < compute_engagement ⟨id, ts, s, c', a⟩ alpha beta gamma scale)
    ∧ (∀ (id : Nat) (ts s c a a' : Int) (alpha beta gamma scale : ℚ),
      0 < gamma → 0 < scale → 0 ≤ a → a + 1 ≤ a' →
      compute_engagement ⟨id, ts, s, c, a⟩ alpha beta gamma scale
        < compute_engagement ⟨id, ts, s, c, a'⟩ alpha beta gamma scale)
    ∧ (∀ (id d r rx : Int) (fw : Option Int) (v v' : Int)
      (alpha beta delta gamma scale : ℚ),
      0 < alpha → 0 ≤ v → v + 1 ≤ v' →
      compute_engagement_telegram ⟨id, d, some v, fw, r, rx⟩ alpha beta delta gamma scale
        < compute_engagement_telegram ⟨id, d, some v', fw, r, rx⟩ alpha beta delta gamma scale)
    ∧ (∀ (id d r rx : Int) (vw : Option Int) (f f' : Int)
      (alpha beta delta gamma scale : ℚ),
      0 < beta → 0 ≤ f → f + 1 ≤ f' →
      compute_engagement_telegram ⟨id, d, vw, some f, r, rx⟩ alpha beta delta gamma scale
        < compute_engagement_telegram ⟨id, d, vw, some f', r, rx⟩ alpha beta delta gamma scale)
    ∧ (∀ (id d rx : Int) (vw fw : Option Int) (r r' : Int)
      (alpha beta delta gamma scale : ℚ),
      0 < delta → 0 ≤ r → r + 1 ≤ r' →
      compute_engagement_telegram ⟨id, d, vw, fw, r, rx⟩ alpha beta delta gamma scale
        < compute_engagement_telegram ⟨id, d, vw, fw, r', rx⟩ alpha beta delta gamma scale)
    ∧ (∀ (id d r : Int) (vw fw : Option Int) (rx rx' : Int)
      (alpha beta delta gamma scale : ℚ),
      0 < gamma → 0 < scale → 0 ≤ rx → rx + 1 ≤ rx' →
      compute_engagement_telegram ⟨id, d, vw, fw, r, rx⟩ alpha beta delta gamma scale
        < compute_engagement_telegram ⟨id, d, vw, fw, r, rx'⟩ alpha beta delta gamma scale)
    ∧ (∀ (c v sv l l' : Int) (alpha beta gamma delta : ℚ),
      0 < alpha → 0 ≤ l → l + 1 ≤ l' →
      compute_engagement_from_metrics l c v sv alpha beta gamma delta
        < compute_engagement_from_metrics l' c v sv alpha beta gamma delta)
    ∧ (∀ (l v sv c c' : Int) (alpha beta gamma delta : ℚ),
      0 < beta → 0 ≤ c → c + 1 ≤ c' →
      compute_engagement_from_metrics l c v sv alpha beta gamma delta
        < compute_engagement_from_metrics l c' v sv alpha beta gamma delta)
    ∧ (∀ (l c sv v v' : Int) (alpha beta gamma delta : ℚ),
      0 < gamma → 0 ≤ v → v + 1 ≤ v' →
      compute_engagement_from_metrics l c v sv alpha beta gamma delta
        < compute_engagement_from_metrics l c v' sv alpha beta gamma delta)
    ∧ (∀ (l c v sv sv' : Int) (alpha beta gamma delta : ℚ),
      0 < delta → 0 ≤ sv → sv + 1 ≤ sv' →
      compute_engagement_from_metrics l c v sv alpha beta gamma delta
        < compute_engagement_from_metrics l c v sv' alpha beta gamma delta) := by
  refine ⟨?_, ?_, ?_, ?_, ?_, ?_, ?_, ?_, ?_, ?_, ?_⟩
  · intro id ts c a s s' alpha beta gamma scale hw h0 h1
    have hx : (0 : ℝ) ≤ (s : ℝ) := by exact_mod_cast h0
    have hy : (s : ℝ) < (s' : ℝ) := by exact_mod_cast (by omega : s < s')
    rw [compute_engagement_eval, compute_engagement_eval]
    dsimp only
    rw [max_eq_right hx, max_eq_right (le_trans hx (le_of_lt hy))]
    have := logTerm_lt alpha hw hx hy
    linarith
  · intro id ts s a c c' alpha beta gamma scale hw h0 h1
    have hx : (0 : ℝ) ≤ (c : ℝ) := by exact_mod_cast h0
    have hy : (c : ℝ) < (c' : ℝ) := by exact_mod_cast (by omega : c < c')
    rw [compute_engagement_eval, compute_engagement_eval]
    dsimp only
    rw [max_eq_right hx, max_eq_right (le_trans hx (le_of_lt hy))]
    have := logTerm_lt beta hw hx hy
    linarith
  · intro id ts s c a a' alpha beta gamma scale hw hsc h0 h1
    have hx : (0 : ℝ) ≤ (a : ℝ) := by exact_mod_cast h0
    have hy : (a : ℝ) < (a' : ℝ) := by exact_mod_cast (by omega : a < a')
    rw [compute_engagement_eval, compute_engagement_eval]
    dsimp only
    rw [max_eq_right hx, max_eq_right (le_trans hx (le_of_lt hy))]
    have := logTermScaled_lt gamma scale hw hsc hx hy
    linarith
  · intro id d r rx fw v v' alpha beta delta gamma scale hw h0 h1
    have hx : (0 : ℝ) ≤ (v : ℝ) := by exact_mod_cast h0
    have hy : (v : ℝ) < (v' : ℝ) := by exact_mod_cast (by omega : v < v')
    rw [compute_engagement_telegram_eval, compute_engagement_telegram_eval]
    dsimp only [Option.getD_some]
    rw [max_eq_right hx, max_eq_right (le_trans hx (le_of_lt hy))]
    have := logTerm_lt alpha hw hx hy
    linarith
  · intro id d r rx vw f f' alpha beta delta gamma scale hw h0 h1
    have hx : (0 : ℝ) ≤ (f : ℝ) := by exact_mod_cast h0
    have hy : (f : ℝ) < (f' : ℝ) := by exact_mod_cast (by omega : f < f')
    rw [compute_engagement_telegram_eval, compute_engagement_telegram_eval]
    dsimp only [Option.getD_some]
    rw [max_eq_right hx, max_eq_right (le_trans hx (le_of_lt hy))]
    have := logTerm_lt beta hw hx hy
    linarith
  · intro id d rx vw fw r r' alpha beta delta gamma scale hw h0 h1
    have hx : (0 : ℝ) ≤ (r : ℝ) := by exact_mod_cast h0
    have hy : (r : ℝ) < (r' : ℝ) := by exact_mod_cast (by omega : r < r')
    rw [compute_engagement_telegram_eval, compute_engagement_telegram_eval]
    dsimp only
    rw [max_eq_right hx, max_eq_right (le_trans hx (le_of_lt hy))]
    have := logTerm_lt delta hw hx hy
    linarith
  · intro id d r vw fw rx rx' alpha beta delta gamma scale hw hsc h0 h1
    have hx : (0 : ℝ) ≤ (rx : ℝ) := by exact_mod_cast h0
    have hy : (rx : ℝ) < (rx' : ℝ) := by exact_mod_cast (by omega : rx < rx')
    rw [compute_engagement_telegram_eval, compute_engagement_telegram_eval]
    dsimp only
    rw [max_eq_right hx, max_eq_right (le_trans hx (le_of_lt hy))]
    have := logTermScaled_lt gamma scale hw hsc hx hy
    linarith
  · intro c v sv l l' alpha beta gamma delta hw h0 h1
    have hx : (0 : ℝ) ≤ (l : ℝ) := by exact_mod_cast h0
    have hy : (l : ℝ) < (l' : ℝ) := by exact_mod_cast (by omega : l < l')
    unfold compute_engagement_from_metrics
    rw [max_eq_right hx, max_eq_right (le_trans hx (le_of_lt hy))]
    have := logTerm_lt alpha hw hx hy
    linarith
  · intro l v sv c c' alpha beta gamma delta hw h0 h1
    have hx : (0 : ℝ) ≤ (c : ℝ) := by exact_mod_cast h0
    have hy : (c : ℝ) < (c' : ℝ) := by exact_mod_cast (by omega : c < c')
    unfold compute_engagement_from_metrics
    rw [max_eq_right hx, max_eq_right (le_trans hx (le_of_lt hy))]
    have := logTerm_lt beta hw hx hy
    linarith
  · intro l c sv v v' alpha beta gamma delta hw h0 h1
    have hx : (0 : ℝ) ≤ (v : ℝ) := by exact_mod_cast h0
    have hy : (v : ℝ) < (v' : ℝ) := by exact_mod_cast (by omega : v < v')
    unfold compute_engagement_from_metrics
    rw [max_eq_right hx, max_eq_right (le_trans hx (le_of_lt hy))]
    have := logTerm_lt gamma hw hx hy
    linarith
  · intro l c v sv sv' alpha beta gamma delta hw h0 h1
    have hx : (0 : ℝ) ≤ (sv : ℝ) := by exact_mod_cast h0
    have hy : (sv : ℝ) < (sv' : ℝ) := by exact_mod_cast (by omega : sv < sv')
    unfold compute_engagement_from_metrics
    rw [max_eq_right hx, max_eq_right (le_trans hx (le_of_lt hy))]
    have := logTerm_lt delta hw hx hy
    linarith

/-- Concrete instantiation of C8: raising the Reddit post score from 3 to 4
with weight 2 strictly increases the engagement score, and likewise for the
Instagram likes counter. -/
theorem engagement_score_strict_mono_witness :
    compute_engagement ⟨1, 0, 3, 2, 1⟩ 2 1 1 10 < compute_engagement ⟨1, 0, 4, 2, 1⟩ 2 1 1 10
      ∧ compute_engagement_from_metrics 3 2 1 0 2 1 1 1
        < compute_engagement_from_metrics 4 2 1 0 2 1 1 1 := by
  constructor
  · exact engagement_score_strict_mono.1 1 0 2 1 3 4 2 1 1 10
      (by simp) (by simp) (by simp)
  · exact engagement_score_strict_mono.2.2.2.2.2.2.2.1 2 1 0 3 4 2 1 1 1
      (by simp) (by simp) (by simp)

end ACC
